import Mathlib

/-!
Shallow embedding of the TR-181 XML → Excel converter
(`xml-to-excel-converter-3.py`): the schema resolution engine.

XML elements are modelled as a rose tree mirroring
`xml.etree.ElementTree.Element` (tag, attributes, text, tail, children).
Python strings are Lean `String`s; Python truthiness of an optional
string attribute (`None` and `""` are falsy) is `truthyOpt`.
-/

namespace XmlConv

/-- An XML element, as exposed by `xml.etree.ElementTree`. -/
inductive Elem : Type where
  | node : String → List (String × String) → String → String → List Elem → Elem
deriving Inhabited

def Elem.tag : Elem → String
  | .node t _ _ _ _ => t

def Elem.attrs : Elem → List (String × String)
  | .node _ a _ _ _ => a

def Elem.text : Elem → String
  | .node _ _ x _ _ => x

def Elem.tail : Elem → String
  | .node _ _ _ x _ => x

def Elem.children : Elem → List Elem
  | .node _ _ _ _ c => c

/-- `elem.get(k)`: attribute lookup, `None` when absent. -/
def Elem.attr (e : Elem) (k : String) : Option String :=
  e.attrs.lookup k

/-- `elem.get(k, '')`. -/
def Elem.attrD (e : Elem) (k : String) : String :=
  (e.attr k).getD ""

/-- Python truthiness of an optional string: `None` and `""` are falsy. -/
def truthyOpt : Option String → Bool
  | none => false
  | some s => !s.isEmpty

/-- All proper descendants of an element in document (preorder) order;
this is the node set and order of `elem.findall(".//tag")` searches. -/
def Elem.descendants : Elem → List Elem
  | .node _ _ _ _ cs => go cs
where
  go : List Elem → List Elem
    | [] => []
    | c :: cs => c :: (Elem.descendants c ++ go cs)

/-- `''.join(elem.itertext())`: own text, then each child's itertext
followed by that child's tail. -/
def Elem.itertext : Elem → String
  | .node _ _ tx _ cs => tx ++ go cs
where
  go : List Elem → String
    | [] => ""
    | c :: cs => c.itertext ++ c.tail ++ go cs

/-- `elem.findall(t)` for a plain tag: direct children with that exact tag. -/
def findallTag (e : Elem) (t : String) : List Elem :=
  e.children.filter (fun c => c.tag == t)

/-- `elem.find(t)` for a plain tag: first direct child with that tag. -/
def findTag (e : Elem) (t : String) : Option Elem :=
  (findallTag e t).head?

/-- `elem.findall(".//t")`: all descendants with that tag, document order. -/
def findall_desc (e : Elem) (t : String) : List Elem :=
  e.descendants.filter (fun c => c.tag == t)

/-- `elem.find(".//t")`: first descendant with that tag. -/
def find_desc_tag (e : Elem) (t : String) : Option Elem :=
  (findall_desc e t).head?

/-! ### Python string primitives -/

/-- ASCII lower-casing of one code point, as `str.lower` acts on the
ASCII range (the only characters appearing in TR-181 paths and tags). -/
def pyLowerChar (c : Char) : Char :=
  if 65 ≤ c.toNat ∧ c.toNat ≤ 90 then Char.ofNat (c.toNat + 32) else c

/-- `s.lower()`. -/
def pyLower (s : String) : String :=
  String.mk (s.data.map pyLowerChar)

/-- The characters Python's `\s` and `str.strip()` treat as whitespace
(ASCII range). -/
def isPySpace (c : Char) : Bool :=
  c == ' ' || c == '\t' || c == '\n' || c == '\r' || c == '\x0b' || c == '\x0c'

/-- Drop a leading run of characters satisfying `p` and a trailing one. -/
def stripRuns (p : Char → Bool) (l : List Char) : List Char :=
  ((l.dropWhile p).reverse.dropWhile p).reverse

/-- `s.strip()` (whitespace at both ends). -/
def pyStripWS (s : String) : String :=
  String.mk (stripRuns isPySpace s.data)

/-- `s.strip(".")`. -/
def pyStripDots (s : String) : String :=
  String.mk (stripRuns (fun c => c == '.') s.data)

/-- `s.rstrip(".")`. -/
def pyRstripDots (s : String) : String :=
  String.mk ((s.data.reverse.dropWhile (fun c => c == '.')).reverse)

/-- One fuel-counted step list of `str.replace(old, new)`:
left-to-right, non-overlapping.  The fuel is the remaining length of the
scanned list, which always suffices since every step consumes at least
one character. -/
def pyReplaceAux (old new : List Char) : Nat → List Char → List Char
  | 0, s => s
  | _ + 1, [] => []
  | fuel + 1, c :: rest =>
    if old ≠ [] ∧ old.isPrefixOf (c :: rest) then
      new ++ pyReplaceAux old new fuel ((c :: rest).drop old.length)
    else
      c :: pyReplaceAux old new fuel rest

/-- `s.replace(old, new)` (for the non-empty patterns this program uses). -/
def pyReplace (s old new : String) : String :=
  String.mk (pyReplaceAux old.data new.data s.data.length s.data)

/-- `pat in s` (Python substring containment). -/
def isSubstr (pat s : String) : Bool :=
  go pat.data s.data
where
  go (p : List Char) : List Char → Bool
    | [] => p.isEmpty
    | c :: rest => p.isPrefixOf (c :: rest) || go p rest

/-- `s.startswith(pre)`. -/
def pyStartsWith (s pre : String) : Bool :=
  pre.data.isPrefixOf s.data

/-- `s.endswith(suf)`. -/
def pyEndsWith (s suf : String) : Bool :=
  suf.data.reverse.isPrefixOf s.data.reverse

/-- `s.split(sep, 1)[1]` when `sep` occurs: the part after the first
occurrence of the one-character separator. -/
def afterFirstChar (sep : Char) (s : String) : String :=
  String.mk (((s.data.dropWhile (fun c => c ≠ sep)).drop 1))

/-- `s.split('}')[-1]`: the suffix after the last `'}'`. -/
def afterLastBrace (l : List Char) : List Char :=
  (l.reverse.takeWhile (fun c => c ≠ '}')).reverse

/-! ### `normalize_path`, `substitute_macros`, `clean_text` -/

/-- `normalize_path(path)`:
`path.lower().replace(" ", "").strip(".")`.
The single-character pattern `" "` makes the `replace` a filter. -/
def normalize_path (path : String) : String :=
  String.mk (stripRuns (fun c => c == '.')
    ((path.data.map pyLowerChar).filter (fun c => c ≠ ' ')))

/-- Scan for the closing `}}` of a `{{...}}` macro.  Mirrors the
non-greedy group of `re.sub(r"\{\{(.*?)\}\}", ...)`: the group is the
shortest run of non-newline characters followed by `}}` (Python's `.`
does not match a newline).  Returns the group and the rest. -/
def findGroup : List Char → Option (List Char × List Char)
  | '}' :: '}' :: rest => some ([], rest)
  | '\n' :: _ => none
  | c :: rest => (findGroup rest).map (fun gr => (c :: gr.1, gr.2))
  | [] => none

/-- One fuel-counted pass of `re.sub(r"\{\{(.*?)\}\}", repl, text)`:
at each position try to match `{{group}}`; on success emit the
replacement and continue after the match, otherwise emit one character.
Fuel equal to the list length always suffices. -/
def subMacrosAux (repl : String → String) : Nat → List Char → List Char
  | 0, s => s
  | _ + 1, [] => []
  | fuel + 1, '{' :: '{' :: rest =>
    match findGroup rest with
    | some gr => (repl (String.mk gr.1)).data ++ subMacrosAux repl fuel gr.2
    | none => '{' :: subMacrosAux repl fuel ('{' :: rest)
  | fuel + 1, c :: rest => c :: subMacrosAux repl fuel rest

/-- `macro_replacer(match)` from `substitute_macros`, applied to the
captured group.  `param_name` and `object_path` are the keyword
arguments (always strings at this program's call sites; `""` behaves
exactly like the `None` default under Python truthiness). -/
def macro_replacer (param_name object_path : String) (grp : String) : String :=
  let m := pyStripWS grp
  if m = "numentries" then
    if param_name ≠ "" ∧ pyEndsWith param_name "NumberOfEntries" then
      let table := pyReplace param_name "NumberOfEntries" ""
      let full_table := if object_path ≠ "" then object_path ++ table else table
      "The number of entries in the " ++ full_table ++ " table."
    else
      "The number of entries."
  else if m = "empty" then "an empty string"
  else if m = "pattern" then "a valid value matching the required pattern"
  else if m = "reference" ∨ m = "referenceName" ∨ m = "noreference" then ""
  else if pyStartsWith m "param|" ∨ pyStartsWith m "object|" ∨ pyStartsWith m "bibref|" then
    afterFirstChar '|' m
  else if pyStartsWith m "reference|" then
    let content := afterFirstChar '|' m
    pyReplace content "{{object}}"
      (if object_path ≠ "" then pyRstripDots object_path else "this object")
  else ""

/-- `substitute_macros(text, param_name, object_path)`. -/
def substitute_macros (text param_name object_path : String) : String :=
  if text = "" then ""
  else
    pyStripWS (String.mk
      (subMacrosAux (macro_replacer param_name object_path) text.data.length text.data))

/-- `re.sub(r'\s+', ' ', text)`: collapse every maximal whitespace run
into one space.  The boolean records whether the previous character was
part of a whitespace run. -/
def collapseWS : Bool → List Char → List Char
  | _, [] => []
  | prev, c :: rest =>
    if isPySpace c then
      if prev then collapseWS true rest else ' ' :: collapseWS true rest
    else c :: collapseWS false rest

/-- `clean_text(text)` (the `None` case never arises here:
`itertext` always yields a string). -/
def clean_text (text : String) : String :=
  pyStripWS (String.mk (collapseWS false text.data))

/-! ### Type signature renderer (`extract_type_info`) -/

/-- `elem.tag.lower().split('}')[-1]`: normalized tag name with any
XML-namespace part removed. -/
def tag_norm (e : Elem) : String :=
  String.mk (afterLastBrace (e.tag.data.map pyLowerChar))

/-- One `<size>` element rendered as `"min:max"`, `"min:"` or `"max"`,
with Python truthiness on the attributes (absent or `""` both falsy);
`none` when neither bound is present. -/
def sizeEntryStr (se : Elem) : Option String :=
  let mn := se.attr "minLength"
  let mx := se.attr "maxLength"
  if truthyOpt mn ∧ truthyOpt mx then some (mn.getD "" ++ ":" ++ mx.getD "")
  else if truthyOpt mn then some (mn.getD "" ++ ":")
  else if truthyOpt mx then some (mx.getD "")
  else none

/-- One `<range>` element rendered the same way from
`minInclusive`/`maxInclusive`. -/
def rangeEntryStr (re : Elem) : Option String :=
  let mn := re.attr "minInclusive"
  let mx := re.attr "maxInclusive"
  if truthyOpt mn ∧ truthyOpt mx then some (mn.getD "" ++ ":" ++ mx.getD "")
  else if truthyOpt mn then some (mn.getD "" ++ ":")
  else if truthyOpt mx then some (mx.getD "")
  else none

/-- The `size_ranges` list of `extract_type_info` (and of the identical
block in `walk_base_chain`): all direct `<size>` entries in order,
then the first direct `<range>` if any. -/
def size_ranges_of (e : Elem) : List String :=
  (findallTag e "size").filterMap sizeEntryStr ++
    (match findTag e "range" with
     | some r => (rangeEntryStr r).toList
     | none => [])

/-- The combined `size_range_str`: square brackets for
`int`/`long`/`unsignedint`, parentheses otherwise; `""` when there are
no entries. -/
def size_range_str_of (e : Elem) : String :=
  let sr := size_ranges_of e
  if sr.isEmpty then ""
  else if tag_norm e = "int" ∨ tag_norm e = "long" ∨ tag_norm e = "unsignedint" then
    "[" ++ String.intercalate ", " sr ++ "]"
  else
    "(" ++ String.intercalate ", " sr ++ ")"

/-- The `value` attributes of the direct `<enumeration>` children
(an explicit `value=""` is kept: the code tests `is not None`). -/
def enumValues (e : Elem) : List String :=
  (findallTag e "enumeration").filterMap (fun x => x.attr "value")

/-- `extract_type_info(elem)`: render a primitive-kind node. -/
def extract_type_info (e : Elem) : String :=
  let tn := tag_norm e
  let sr := size_ranges_of e
  let srs := size_range_str_of e
  let enum_values := enumValues e
  let enum_str := String.intercalate "," enum_values
  let pureStringEnum :=
    tn = "string" ∧ ∀ c ∈ e.children, tag_norm c = "enumeration"
  let base :=
    if enum_values.isEmpty then tn
    else if pureStringEnum then "string" else "enum"
  let enum_values' :=
    if ¬enum_values.isEmpty ∧ pureStringEnum then [] else enum_values
  let type_str := if sr.isEmpty then base else base ++ srs
  if enum_values'.isEmpty then type_str else type_str ++ "[" ++ enum_str ++ "]"

/-! ### DataType chain resolver -/

/-- All `name` attributes of `<dataType>` definitions under the root. -/
def dtNames (root : Elem) : List String :=
  (root.descendants.filter (fun d => d.tag == "dataType")).filterMap
    (fun d => d.attr "name")

/-- The first `<dataType>` descendant whose `name` attribute equals
`b` (the lookup loop over `xml_root.findall(".//dataType")`). -/
def find_dataType (root : Elem) (b : String) : Option Elem :=
  root.descendants.find? (fun d => d.tag == "dataType" && d.attr "name" == some b)

/-- The base-chain step at the end of `walk_base_chain`: when the node
has a truthy, unvisited `base` naming a known definition, the walk
recurses into that definition with the base added to the visited set.
Returns the base name and its definition, or `none` when the walk stops
(no base, base already visited, or base unknown). -/
def walkStep (root elem : Elem) (visited : List String) : Option (String × Elem) :=
  match elem.attr "base" with
  | some b =>
    if b ≠ "" ∧ ¬ visited.contains b then
      match find_dataType root b with
      | some parent => some (b, parent)
      | none => none
    else none
  | none => none

/-- The tag names probed by the fallback loop of `walk_base_chain`
(note: case-sensitive, and `long` is absent). -/
def primTags : List String :=
  ["string", "int", "unsignedInt", "unsignedLong", "hexBinary", "dateTime", "boolean", "list"]

/-- Steps 1–4 of `walk_base_chain`, which look only at the current
node: first direct child (other than a description) with a non-empty
signature; first probed primitive tag found anywhere beneath; an
`enum[...]` from enumerations directly on the node; a signature from
`size`/`range` directly on the node.  `none` means the walk moves on to
the base chain. -/
def walk_local (elem : Elem) : Option String :=
  match elem.children.find?
      (fun c => tag_norm c != "description" && extract_type_info c != "") with
  | some c => some (extract_type_info c)
  | none =>
    match primTags.findSome? (fun t =>
        match find_desc_tag elem t with
        | some se => if extract_type_info se ≠ "" then some (extract_type_info se) else none
        | none => none) with
    | some ti => some ti
    | none =>
      if ¬ (findallTag elem "enumeration").isEmpty then
        some ("enum[" ++ String.intercalate "," (enumValues elem) ++ "]")
      else if size_range_str_of elem ≠ "" then
        some (tag_norm elem ++ size_range_str_of elem)
      else none

/-- `walk_base_chain(elem, xml_root, visited)` with explicit fuel.
`none` means the fuel ran out (never happens at the fuel
`resolve_datatype_reference` supplies, see the chain-termination
theorem); `some r` is the Python return value `r`. -/
def walk_base_chain : Nat → Elem → Elem → List String → Option (Option String)
  | 0, _, _, _ => none
  | fuel + 1, elem, root, visited =>
    match walk_local elem with
    | some ti => some (some ti)
    | none =>
      match walkStep root elem visited with
      | some bp => walk_base_chain fuel bp.2 root (bp.1 :: visited)
      | none => some none

/-- The final fallback loop of `resolve_datatype_reference`: first
non-description child with a non-empty rendered signature. -/
def dt_fallback (dt : Elem) : Option String :=
  dt.children.findSome? (fun c =>
    if tag_norm c = "description" then none
    else if extract_type_info c ≠ "" then some (extract_type_info c) else none)

/-- `resolve_datatype_reference(datatype_name, xml_root)`: the visited
set is seeded with the starting name; the fuel `|dtNames| + 1` always
suffices (see the chain-termination theorem). -/
def resolve_datatype_reference (root : Elem) (datatype_name : String) : Option String :=
  match find_dataType root datatype_name with
  | none => none
  | some dt =>
    match walk_base_chain ((dtNames root).length + 1) dt root [datatype_name] with
    | some (some t) => if t ≠ "" then some t else dt_fallback dt
    | _ => dt_fallback dt

/-- The number of dataType names not yet visited: the quantity that
strictly decreases along the base chain, bounding the recursion
depth. -/
def unvisitedBound (root : Elem) (visited : List String) : Nat :=
  ((dtNames root).toFinset \ visited.toFinset).card

/-- The length of the base chain the walk can still follow from `elem`
under the visited set: zero when the chain step stops (no base, base
visited, or base unknown), one more than the parent's chain length
otherwise. -/
inductive BaseChainLen (root : Elem) : Elem → List String → Nat → Prop where
  | stop (elem : Elem) (visited : List String)
      (h : walkStep root elem visited = none) : BaseChainLen root elem visited 0
  | step (elem : Elem) (visited : List String) (b : String) (parent : Elem) (n : Nat)
      (hb : walkStep root elem visited = some (b, parent))
      (hrec : BaseChainLen root parent (b :: visited) n) :
      BaseChainLen root elem visited (n + 1)

-- a two-element cyclic definition table used by the chain theorems
def dtA : Elem := .node "dataType" [("name", "A"), ("base", "B")] "" "" []
def dtB : Elem := .node "dataType" [("name", "B"), ("base", "A")] "" "" []
def cycRoot : Elem := .node "root" [] "" "" [dtA, dtB]

/-! ### Template and reference resolvers -/

/-- One entry of `templates_dict`, as built by
`extract_template_data_from_xml`. -/
structure Template where
  name : String
  ref : String
  template : String
  description : String
  data_type : String
  default_value : String
deriving Repr, DecidableEq

/-- The `{description, data_type, default_value}` result of
`extract_template_data`. -/
structure TemplateRes where
  description : String
  data_type : String
  default_value : String
deriving Repr, DecidableEq

/-- Parent-template fields fill only the still-empty child fields
(`extract_template_data`, inheritance merge). -/
def template_fill (d p : TemplateRes) : TemplateRes :=
  let d := if d.description = "" ∧ p.description ≠ "" then { d with description := p.description } else d
  let d := if d.data_type = "" ∧ p.data_type ≠ "" then { d with data_type := p.data_type } else d
  if d.default_value = "" ∧ p.default_value ≠ "" then { d with default_value := p.default_value } else d

/-- `extract_template_data(template_name, templates_dict)` with explicit
fuel.  The Python original recurses into the parent template with no
visited set and no depth bound; outer `none` marks fuel exhaustion,
`some r` means the original returns `r`. -/
def extract_template_data_fuel :
    Nat → List (String × Template) → String → Option (Option TemplateRes)
  | 0, _, _ => none
  | fuel + 1, templates, template_name =>
    match templates.lookup template_name with
    | none => some none
    | some td =>
      let data : TemplateRes := ⟨td.description, td.data_type, td.default_value⟩
      if td.template ≠ "" then
        match extract_template_data_fuel fuel templates td.template with
        | none => none
        | some none => some (some data)
        | some (some p) => some (some (template_fill data p))
      else some (some data)

/-- `extract_template_data` at the fuel `|templates| + 1`.  On the
acyclic tables the source format produces this is exactly the Python
function; on a cyclic parent chain the Python original recurses without
bound (see the template-cycle theorem), which this bounded model maps
to `none`. -/
def extract_template_data (templates : List (String × Template)) (template_name : String) :
    Option TemplateRes :=
  (extract_template_data_fuel (templates.length + 1) templates template_name).getD none

/-- The `{description, data_type}` result of `resolve_reference`. -/
structure RefRes where
  description : String
  data_type : String
deriving Repr, DecidableEq

/-- `resolve_reference(ref_name, references_dict)`:
a synthetic description naming the target, and an empty data type. -/
def resolve_reference (ref_name : String) (references : List (String × String)) :
    Option RefRes :=
  (references.lookup ref_name).map (fun target => ⟨"Reference to: " ++ target, ""⟩)

/-! ### Parameter extraction -/

/-- One output record for a parameter row. -/
structure ParamData where
  objectName : String
  parameterName : String
  fullPath : String
  access : String
  version : String
  description : String
  dataType : String
  objectDefault : String
  isObject : Bool
deriving Repr, DecidableEq

/-- Template overlay on a parameter record: each field is filled only
when still empty and the template supplies a truthy value. -/
def apply_template_data (pd : ParamData) (td : TemplateRes) : ParamData :=
  let pd := if pd.description = "" ∧ td.description ≠ "" then { pd with description := td.description } else pd
  let pd := if pd.dataType = "" ∧ td.data_type ≠ "" then { pd with dataType := td.data_type } else pd
  if pd.objectDefault = "" ∧ td.default_value ≠ "" then { pd with objectDefault := td.default_value } else pd

def apply_template_res (pd : ParamData) (tdO : Option TemplateRes) : ParamData :=
  match tdO with
  | some td => apply_template_data pd td
  | none => pd

/-- Reference overlay: each still-empty field is assigned the resolved
value (with no truthiness check on the reference side; the reference
never carries a data type or default). -/
def apply_reference_data (pd : ParamData) (rd : RefRes) : ParamData :=
  let pd := if pd.description = "" then { pd with description := rd.description } else pd
  let pd := if pd.dataType = "" then { pd with dataType := rd.data_type } else pd
  if pd.objectDefault = "" then { pd with objectDefault := "" } else pd

def apply_reference_res (pd : ParamData) (rdO : Option RefRes) : ParamData :=
  match rdO with
  | some rd => apply_reference_data pd rd
  | none => pd

/-- The sanitized full path:
`f"{parent.rstrip('.')}.{name}".replace(" ", "").strip(".").rstrip('.')`. -/
def mkFullPath (parent_object_name name : String) : String :=
  pyRstripDots (pyStripDots (String.mk
    (((pyRstripDots parent_object_name) ++ "." ++ name).data.filter (fun c => c ≠ ' '))))

/-- The direct children whose (lower-cased) tag contains
`"description"`. -/
def descChildren (param : Elem) : List Elem :=
  param.children.filter (fun c => isSubstr "description" (pyLower c.tag))

/-- The description-resolution block of `extract_parameter_data`:
HTML exact match, then relaxed `{i}`-stripped match in index order,
then the embedded XML description (the loop makes the last description
child win), then the sentinel. -/
def resolve_param_description (full_path : String) (html_descriptions : List (String × String))
    (param : Elem) (name parent_object_name : String) : String :=
  let normalized := normalize_path full_path
  match html_descriptions.lookup normalized with
  | some v => v
  | none =>
    let relaxed := pyReplace normalized "{i}" ""
    match html_descriptions.find? (fun kv => pyReplace kv.1 "{i}" "" == relaxed) with
    | some kv => kv.2
    | none =>
      match (descChildren param).getLast? with
      | some d => clean_text (substitute_macros d.itertext name parent_object_name)
      | none => "No HTML or XML description available"

/-- A `<default>` child of the syntax element: a `value` attribute (the
code tests `is not None`, so `value=""` is assigned) wins over truthy
element text, which is stripped. -/
def apply_default_child (pd : ParamData) (te : Elem) : ParamData :=
  match te.attr "value" with
  | some v => { pd with objectDefault := v }
  | none => if te.text ≠ "" then { pd with objectDefault := pyStripWS te.text } else pd

/-- The first loop over the syntax children: handle `<default>`
children and stop at the first `<dataType>` child, returning its `ref`
attribute (defaults after that child are never processed). -/
def scan_datatype_ref (pd : ParamData) : List Elem → ParamData × Option (Option String)
  | [] => (pd, none)
  | te :: rest =>
    let tn := tag_norm te
    if tn = "default" then scan_datatype_ref (apply_default_child pd te) rest
    else if tn = "datatype" then (pd, some (te.attr "ref"))
    else scan_datatype_ref pd rest

/-- `value` children of a type element set the default when their text
is truthy (the last one wins). -/
def default_from_values (pd : ParamData) (te : Elem) : ParamData :=
  te.children.foldl
    (fun pd ve =>
      if isSubstr "value" (pyLower ve.tag) then
        if ve.text ≠ "" then { pd with objectDefault := pyStripWS ve.text } else pd
      else pd)
    pd

/-- The aggregated hexbinary signature: every `<size>` anywhere beneath
the node, comma-joined in parentheses. -/
def hexbinary_sizes_str (e : Elem) : String :=
  let parts := (findall_desc e "size").filterMap sizeEntryStr
  if parts.isEmpty then "hexbinary"
  else "hexbinary(" ++ String.intercalate ", " parts ++ ")"

/-- The mutable state of the second loop over the syntax children. -/
structure TypeState where
  is_list : Bool
  data_type : String
  formatted_type : String
  size_elem : Option Elem
  range_elem : Option Elem

def initTypeState : TypeState := ⟨false, "", "", none, none⟩

/-- One iteration of the second loop over the syntax children. -/
def type_loop_step (acc : TypeState × ParamData) (te : Elem) : TypeState × ParamData :=
  let st := acc.1
  let pd := acc.2
  let tn := tag_norm te
  if tn = "default" then (st, pd)
  else if tn = "list" then
    let st1 := { st with
      is_list := true
      size_elem := find_desc_tag te "size"
      range_elem := find_desc_tag te "range" }
    match te.children.find? (fun c => tag_norm c == "hexbinary") with
    | some h => ({ st1 with data_type := "hexbinary", formatted_type := hexbinary_sizes_str h }, pd)
    | none => (st1, pd)
  else if tn = "string" ∨ tn = "int" ∨ tn = "unsignedint" ∨ tn = "long" ∨ tn = "unsignedlong" then
    let st1 :=
      if st.is_list then { st with data_type := tn }
      else { st with
        data_type := tn
        size_elem := find_desc_tag te "size"
        range_elem := find_desc_tag te "range" }
    (st1, default_from_values pd te)
  else if tn = "hexbinary" then
    ({ st with data_type := "hexbinary", formatted_type := hexbinary_sizes_str te },
      default_from_values pd te)
  else if tn ≠ "list" ∧ tn ≠ "string" ∧ tn ≠ "int" ∧ tn ≠ "unsignedint" ∧ tn ≠ "long"
      ∧ tn ≠ "unsignedlong" ∧ tn ≠ "datatype" ∧ tn ≠ "hexbinary" then
    ({ st with data_type := tn, formatted_type := tn }, default_from_values pd te)
  else (st, pd)

/-- String formatting shared by the list and non-list branches:
`string(min:max)`, `string(max)`, or the bare kind. -/
def format_string_size (dt : String) (size_e : Option Elem) : String :=
  match size_e with
  | some se =>
    let mn := se.attr "minLength"
    let mx := se.attr "maxLength"
    if truthyOpt mn ∧ truthyOpt mx then dt ++ "(" ++ mn.getD "" ++ ":" ++ mx.getD "" ++ ")"
    else if truthyOpt mx then dt ++ "(" ++ mx.getD "" ++ ")"
    else dt
  | none => dt

/-- Numeric range in square brackets: `dt[min:max]`, `dt[min:]`,
`dt[:max]`, or the bare kind. -/
def bracket_range (dt : String) (re : Elem) : String :=
  let mn := re.attr "minInclusive"
  let mx := re.attr "maxInclusive"
  if truthyOpt mn ∧ truthyOpt mx then dt ++ "[" ++ mn.getD "" ++ ":" ++ mx.getD "" ++ "]"
  else if truthyOpt mn then dt ++ "[" ++ mn.getD "" ++ ":]"
  else if truthyOpt mx then dt ++ "[:" ++ mx.getD "" ++ "]"
  else dt

/-- Numeric range in parentheses: `dt(min:max)`, `dt(min:)`,
`dt(:max)`, or the bare kind. -/
def paren_range (dt : String) (re : Elem) : String :=
  let mn := re.attr "minInclusive"
  let mx := re.attr "maxInclusive"
  if truthyOpt mn ∧ truthyOpt mx then dt ++ "(" ++ mn.getD "" ++ ":" ++ mx.getD "" ++ ")"
  else if truthyOpt mn then dt ++ "(" ++ mn.getD "" ++ ":)"
  else if truthyOpt mx then dt ++ "(:" ++ mx.getD "" ++ ")"
  else dt

/-- The `if is_list:` formatting branch: only `unsignedint` gets square
brackets for its range; `int`, `long` and `unsignedlong` get
parentheses. -/
def format_list_type (dt : String) (size_e range_e : Option Elem) (ft : String) : String :=
  if dt = "string" then format_string_size dt size_e
  else if dt = "int" ∨ dt = "unsignedint" ∨ dt = "long" ∨ dt = "unsignedlong" then
    match range_e with
    | some re => if dt = "unsignedint" then bracket_range dt re else paren_range dt re
    | none => dt
  else if dt = "hexbinary" then (if ft = "" then dt else ft)
  else dt

/-- The non-list formatting branch: `int`, `long` and `unsignedint` get
square brackets for their range; `unsignedlong` falls back to the bare
kind. -/
def format_nonlist_type (dt : String) (size_e range_e : Option Elem) (ft : String) : String :=
  if dt = "string" then format_string_size dt size_e
  else if dt = "int" ∨ dt = "unsignedint" ∨ dt = "long" ∨ dt = "unsignedlong" then
    match range_e with
    | some re =>
      if dt = "int" ∨ dt = "long" ∨ dt = "unsignedint" then bracket_range dt re else dt
    | none => dt
  else if dt = "hexbinary" then (if ft = "" then dt else ft)
  else (if ft = "" then dt else ft)

/-- The final `Data Type` value of one syntax block:
the formatted type if truthy, else the raw kind. -/
def finish_type (st : TypeState) : String :=
  let ft :=
    if st.is_list then format_list_type st.data_type st.size_elem st.range_elem st.formatted_type
    else format_nonlist_type st.data_type st.size_elem st.range_elem st.formatted_type
  if ft ≠ "" then ft else st.data_type

/-- Processing of one syntax child of the parameter: resolve a
`<dataType ref>` through the chain resolver (falling back to
`ref(<name>)`), or run the inline type loop and formatting. -/
def process_syntax_elem (root : Elem) (pd : ParamData) (syn : Elem) : ParamData :=
  let scanned := scan_datatype_ref pd syn.children
  let pd1 := scanned.1
  let dtRef : Option String := scanned.2.getD none
  if truthyOpt dtRef then
    let r := dtRef.getD ""
    match resolve_datatype_reference root r with
    | some t =>
      if t ≠ "" then { pd1 with dataType := t }
      else { pd1 with dataType := "ref(" ++ r ++ ")" }
    | none => { pd1 with dataType := "ref(" ++ r ++ ")" }
  else
    let res := syn.children.foldl type_loop_step (initTypeState, pd1)
    { res.2 with dataType := finish_type res.1 }

/-- `extract_parameter_data(param_elem, parent_object_name,
references_dict, templates_dict, html_descriptions, xml_root)`. -/
def extract_parameter_data (param : Elem) (parent_object_name : String)
    (references : List (String × String)) (templates : List (String × Template))
    (html_descriptions : List (String × String)) (root : Elem) : ParamData :=
  let name := param.attrD "name"
  let access := param.attrD "access"
  let version := param.attrD "version"
  let ref := param.attrD "ref"
  let template_ref := param.attrD "template"
  let full_path := mkFullPath parent_object_name name
  let pd0 : ParamData :=
    { objectName := parent_object_name
      parameterName := name
      fullPath := full_path
      access := access
      version := version
      description := ""
      dataType := ""
      objectDefault := ""
      isObject := false }
  let pd1 := { pd0 with
    description := resolve_param_description full_path html_descriptions param name parent_object_name }
  let pd2 := (param.children.filter (fun c => isSubstr "syntax" (pyLower c.tag))).foldl
    (process_syntax_elem root) pd1
  let pd3 :=
    if template_ref ≠ "" then apply_template_res pd2 (extract_template_data templates template_ref)
    else pd2
  if ref ≠ "" then apply_reference_res pd3 (resolve_reference ref references)
  else pd3

/-! ### Concrete fixtures used by the theorems -/

/-- A schema root with no dataType definitions. -/
def emptyRoot : Elem := .node "root" [] "" "" []

/-- The §8 end-to-end scenario: parameter `Value` of type `int` with
range 1–10 and embedded description `"Test value {{empty}}"`. -/
def paramValue : Elem :=
  .node "parameter" [("name", "Value"), ("access", "readOnly")] "" ""
    [.node "description" [] "Test value {{empty}}" "" [],
     .node "syntax" [] "" ""
       [.node "int" [] "" ""
         [.node "range" [("minInclusive", "1"), ("maxInclusive", "10")] "" "" []]]]

/-- A parameter whose syntax block is a list carrying a range, with an
`int` item sibling. -/
def paramListInt : Elem :=
  .node "parameter" [("name", "X")] "" ""
    [.node "syntax" [] "" ""
      [.node "list" [] "" ""
        [.node "range" [("minInclusive", "1"), ("maxInclusive", "10")] "" "" []],
       .node "int" [] "" "" []]]

/-- A parameter with an embedded description and a `template`
attribute. -/
def paramTemplated : Elem :=
  .node "parameter" [("name", "P"), ("template", "T")] "" ""
    [.node "description" [] "EmbDesc" "" []]

/-- A template table where `T` carries its own description. -/
def templatesT : List (String × Template) :=
  [("T", ⟨"T", "", "", "TmplDesc", "", ""⟩)]

/-- A parameter whose only description element has empty text. -/
def paramEmptyDesc : Elem :=
  .node "parameter" [("name", "P")] "" "" [.node "description" [] "" "" []]

/-- A parameter whose syntax names an unknown dataType. -/
def paramUnknownRef : Elem :=
  .node "parameter" [("name", "P")] "" ""
    [.node "syntax" [] "" "" [.node "dataType" [("ref", "Foo")] "" "" []]]

/-- A blank parameter record. -/
def pdBlank : ParamData :=
  ⟨"Device.X.", "P", "Device.X.P", "", "", "", "", "", false⟩

/-- A cyclic template table: `A`'s parent is `B` and `B`'s parent is
`A`. -/
def cycTemplates : List (String × Template) :=
  [("A", ⟨"A", "", "B", "", "", ""⟩), ("B", ⟨"B", "", "A", "", "", ""⟩)]

/-- A `string` node whose children are only enumerations. -/
def stringPureEnum : Elem :=
  .node "string" [] "" ""
    [.node "enumeration" [("value", "A")] "" "" [],
     .node "enumeration" [("value", "B")] "" "" []]

/-- A `string` node with enumerations and a `size` constraint sibling. -/
def stringEnumSized : Elem :=
  .node "string" [] "" ""
    [.node "enumeration" [("value", "A")] "" "" [],
     .node "enumeration" [("value", "B")] "" "" [],
     .node "size" [("maxLength", "16")] "" "" []]

/-- An `int` node with a 0–5 range. -/
def intRangeElem : Elem :=
  .node "int" [] "" ""
    [.node "range" [("minInclusive", "0"), ("maxInclusive", "5")] "" "" []]

/-- A bare 1–10 range element. -/
def rangeElem110 : Elem :=
  .node "range" [("minInclusive", "1"), ("maxInclusive", "10")] "" "" []

/-! ### Lemmas about the path normalizer -/

theorem pyLowerChar_idem (c : Char) : pyLowerChar (pyLowerChar c) = pyLowerChar c := by
  unfold pyLowerChar
  split
  · next h =>
    obtain ⟨h1, h2⟩ := h
    set n := c.toNat with hn
    interval_cases n <;> decide
  · rfl

theorem head?_dropWhile_not (p : Char → Bool) (l : List Char) (a : Char)
    (h : (l.dropWhile p).head? = some a) : p a = false := by
  induction l with
  | nil => simp at h
  | cons c t ih =>
    rw [List.dropWhile_cons] at h
    split at h
    · exact ih h
    · next hc =>
      simp only [List.head?_cons, Option.some.injEq] at h
      subst h
      simpa using hc

theorem mem_stripRuns (p : Char → Bool) (l : List Char) (a : Char)
    (h : a ∈ stripRuns p l) : a ∈ l := by
  unfold stripRuns at h
  rw [List.mem_reverse] at h
  have h2 : a ∈ (l.dropWhile p).reverse := (List.dropWhile_suffix p).sublist.mem h
  rw [List.mem_reverse] at h2
  exact (List.dropWhile_suffix p).sublist.mem h2

theorem head?_stripRuns (p : Char → Bool) (l : List Char) (a : Char)
    (h : (stripRuns p l).head? = some a) : p a = false := by
  unfold stripRuns at h
  rw [List.head?_reverse] at h
  -- the inner `dropWhile` output is a suffix of `(l.dropWhile p).reverse`
  obtain ⟨w, hw⟩ := List.dropWhile_suffix (l := (l.dropWhile p).reverse) p
  have hne : ((l.dropWhile p).reverse.dropWhile p) ≠ [] := by
    intro hnil
    rw [hnil] at h
    simp at h
  have hlast : ((l.dropWhile p).reverse.dropWhile p).getLast?
      = ((l.dropWhile p).reverse).getLast? := by
    conv_rhs => rw [← hw]
    exact (List.getLast?_append_of_ne_nil _ hne).symm
  rw [hlast, List.getLast?_reverse] at h
  exact head?_dropWhile_not p _ a h

theorem getLast?_stripRuns (p : Char → Bool) (l : List Char) (a : Char)
    (h : (stripRuns p l).getLast? = some a) : p a = false := by
  unfold stripRuns at h
  rw [List.getLast?_reverse] at h
  exact head?_dropWhile_not p _ a h

theorem dropWhile_eq_self_of_head (p : Char → Bool) (l : List Char)
    (h : ∀ a, l.head? = some a → p a = false) : l.dropWhile p = l := by
  cases l with
  | nil => rfl
  | cons c t =>
    rw [List.dropWhile_cons, if_neg]
    simp [h c rfl]

theorem stripRuns_eq_self (p : Char → Bool) (l : List Char)
    (hh : ∀ a, l.head? = some a → p a = false)
    (hl : ∀ a, l.getLast? = some a → p a = false) : stripRuns p l = l := by
  unfold stripRuns
  rw [dropWhile_eq_self_of_head p l hh]
  rw [dropWhile_eq_self_of_head p l.reverse (fun a ha => by
    rw [List.head?_reverse] at ha
    exact hl a ha)]
  exact List.reverse_reverse l

theorem map_eq_self_of_mem (f : Char → Char) (l : List Char) (h : ∀ a ∈ l, f a = a) :
    l.map f = l := by
  induction l with
  | nil => rfl
  | cons a t ih =>
    simp only [List.map_cons, List.cons.injEq]
    exact ⟨h a (by simp), ih (fun b hb => h b (by simp [hb]))⟩

/-- Every character of `normalize_path p` survives from the lower-cased
input: it is a `pyLowerChar` image and not a space. -/
theorem normalize_path_chars (p : String) (c : Char) (h : c ∈ (normalize_path p).toList) :
    pyLowerChar c = c ∧ c ≠ ' ' := by
  have h1 : c ∈ (p.data.map pyLowerChar).filter (fun c => c ≠ ' ') :=
    mem_stripRuns _ _ c h
  rw [List.mem_filter] at h1
  obtain ⟨hmem, hc⟩ := h1
  rw [List.mem_map] at hmem
  obtain ⟨d, _, hd⟩ := hmem
  refine ⟨?_, by simpa using hc⟩
  rw [← hd]
  exact pyLowerChar_idem d

/-- C8 (amended): `normalize_path` lower-cases its input, removes every
internal space character `' '` (other whitespace, e.g. a tab, is kept —
see the counterexample), and trims leading and trailing `'.'`
separators; it is a total function and the empty string is a possible
(degenerate) output. -/
theorem normalize_path_shape (p : String) :
    (∀ c ∈ (normalize_path p).toList, pyLowerChar c = c ∧ c ≠ ' ')
    ∧ (∀ c, (normalize_path p).toList.head? = some c → c ≠ '.')
    ∧ (∀ c, (normalize_path p).toList.getLast? = some c → c ≠ '.')
    ∧ normalize_path "" = "" ∧ normalize_path " .. " = "" := by
  refine ⟨fun c hc => normalize_path_chars p c hc, ?_, ?_, by decide, by decide⟩
  · intro c hc
    have hfalse := head?_stripRuns (fun c => c == '.') _ c hc
    intro h
    subst h
    simp at hfalse
  · intro c hc
    have hfalse := getLast?_stripRuns (fun c => c == '.') _ c hc
    intro h
    subst h
    simp at hfalse

/-- Witness for the C8 theorem at the concrete input `"A.b"`
(`normalize_path "A.b" = "a.b"`). -/
theorem normalize_path_shape_witness :
    (pyLowerChar 'a' = 'a' ∧ 'a' ≠ ' ') ∧ 'a' ≠ '.' ∧ 'b' ≠ '.' :=
  ⟨(normalize_path_shape "A.b").1 'a' (by decide),
   (normalize_path_shape "A.b").2.1 'a' (by decide),
   (normalize_path_shape "A.b").2.2.1 'b' (by decide)⟩

/-- C8 counterexample: the claim says *all* internal whitespace is
stripped, but only the space character is; a tab survives
normalization unchanged. -/
theorem normalize_path_keeps_tab :
    normalize_path "a\tb" = "a\tb"
    ∧ '\t' ∈ (normalize_path "a\tb").toList
    ∧ '\t'.isWhitespace = true := by decide

/-- C10: path normalization is idempotent — re-normalizing a normalized
key changes nothing. -/
theorem normalize_path_idem (p : String) :
    normalize_path (normalize_path p) = normalize_path p := by
  have h1 : (normalize_path p).data.map pyLowerChar = (normalize_path p).data :=
    map_eq_self_of_mem _ _ (fun a ha => (normalize_path_chars p a ha).1)
  have h2 : (normalize_path p).data.filter (fun c => c ≠ ' ') = (normalize_path p).data :=
    List.filter_eq_self.mpr (fun a ha => by
      simpa using (normalize_path_chars p a ha).2)
  have h3 : stripRuns (fun c => c == '.') (normalize_path p).data = (normalize_path p).data :=
    stripRuns_eq_self _ _
      (fun a ha => head?_stripRuns (fun c => c == '.') _ a ha)
      (fun a ha => getLast?_stripRuns (fun c => c == '.') _ a ha)
  show String.mk (stripRuns (fun c => c == '.')
      (((normalize_path p).data.map pyLowerChar).filter (fun c => c ≠ ' '))) = normalize_path p
  rw [h1, h2, h3]

/-- C9: end-to-end scenario — one object `Device.Test.` with one
parameter `Value` of inline type `int` with range 1–10, no
documentation-source match, embedded description
`"Test value {{empty}}"`: the record for `Device.Test.Value` has
`Data Type = "int[1:10]"` and
`Description = "Test value an empty string"`. -/
theorem e2e_int_range_record :
    (extract_parameter_data paramValue "Device.Test." [] [] [] emptyRoot).fullPath
        = "Device.Test.Value"
    ∧ (extract_parameter_data paramValue "Device.Test." [] [] [] emptyRoot).dataType
        = "int[1:10]"
    ∧ (extract_parameter_data paramValue "Device.Test." [] [] [] emptyRoot).description
        = "Test value an empty string" := by
  decide

/-- C7: when a syntax block names a dataType reference and the chain
resolver returns null, the parameter's `Data Type` becomes the
placeholder `ref(<name>)` and extraction continues (the function is
total and returns a record). -/
theorem unresolved_datatype_ref_placeholder
    (root : Elem) (pd : ParamData) (syn : Elem) (r : String)
    (hscan : (scan_datatype_ref pd syn.children).2 = some (some r))
    (hr : r ≠ "")
    (hres : resolve_datatype_reference root r = none) :
    (process_syntax_elem root pd syn).dataType = "ref(" ++ r ++ ")" := by
  unfold process_syntax_elem
  have htruthy : truthyOpt (some r) = true := by
    have hne : r.isEmpty = false := by
      rw [Bool.eq_false_iff]
      intro h
      exact hr ((String.isEmpty_iff r).mp h)
    simp [truthyOpt, hne]
  simp only [hscan, Option.getD_some, htruthy, if_true, hres]

/-- Witness for the C7 theorem: parameter syntax naming the unknown
dataType `Foo` against an empty definition table. -/
theorem unresolved_datatype_ref_placeholder_witness :
    (process_syntax_elem emptyRoot pdBlank (.node "syntax" [] "" ""
        [.node "dataType" [("ref", "Foo")] "" "" []])).dataType = "ref(Foo)" :=
  unresolved_datatype_ref_placeholder emptyRoot pdBlank _ "Foo"
    (by decide) (by decide) (by decide)

/-- C1 (amended): in the dataType-definition chain renderer, size/range
constraints are bracketed `[...]` for the kinds `int`, `long`,
`unsignedint` and parenthesized `(...)` for every other kind.  In the
inline non-list branch, `int`, `long` and `unsignedint` ranges use
square brackets while an `unsignedlong` range is dropped (bare kind).
In the inline list branch only `unsignedint` uses square brackets;
`int` and `long` ranges are rendered with parentheses (see the
counterexample). -/
theorem bracket_law :
    (∀ e : Elem, size_ranges_of e ≠ [] →
      (tag_norm e = "int" ∨ tag_norm e = "long" ∨ tag_norm e = "unsignedint") →
      size_range_str_of e = "[" ++ String.intercalate ", " (size_ranges_of e) ++ "]")
    ∧ (∀ e : Elem, size_ranges_of e ≠ [] →
      ¬(tag_norm e = "int" ∨ tag_norm e = "long" ∨ tag_norm e = "unsignedint") →
      size_range_str_of e = "(" ++ String.intercalate ", " (size_ranges_of e) ++ ")")
    ∧ (∀ (dt : String) (se : Option Elem) (re : Elem) (ft : String),
      dt = "int" ∨ dt = "long" ∨ dt = "unsignedint" →
      format_nonlist_type dt se (some re) ft = bracket_range dt re)
    ∧ (∀ (se : Option Elem) (re : Elem) (ft : String),
      format_nonlist_type "unsignedlong" se (some re) ft = "unsignedlong")
    ∧ (∀ (se : Option Elem) (re : Elem) (ft : String),
      format_list_type "unsignedint" se (some re) ft = bracket_range "unsignedint" re)
    ∧ (∀ (dt : String) (se : Option Elem) (re : Elem) (ft : String),
      dt = "int" ∨ dt = "long" →
      format_list_type dt se (some re) ft = paren_range dt re) := by
  refine ⟨?_, ?_, ?_, ?_, ?_, ?_⟩
  · intro e hne htriple
    simp only [size_range_str_of, List.isEmpty_iff, if_neg hne, if_pos htriple]
  · intro e hne htriple
    simp only [size_range_str_of, List.isEmpty_iff, if_neg hne, if_neg htriple]
  · intro dt se re ft hdt
    rcases hdt with rfl | rfl | rfl <;> simp [format_nonlist_type]
  · intro se re ft
    simp [format_nonlist_type]
  · intro se re ft
    simp [format_list_type]
  · intro dt se re ft hdt
    rcases hdt with rfl | rfl <;> simp [format_list_type]

/-- Witness for the C1 theorem: an `int` node with a range renders
`[0:5]` through the chain renderer, and the inline list branch sends an
`int` range to the parenthesized form. -/
theorem bracket_law_witness :
    size_range_str_of intRangeElem
        = "[" ++ String.intercalate ", " (size_ranges_of intRangeElem) ++ "]"
    ∧ format_list_type "int" none (some rangeElem110) "" = paren_range "int" rangeElem110 :=
  ⟨bracket_law.1 intRangeElem (by decide) (by decide),
   bracket_law.2.2.2.2.2 "int" none rangeElem110 "" (Or.inl rfl)⟩

/-- C1 counterexample: a parameter whose inline syntax is a list with a
1–10 range and kind `int` gets `Data Type = "int(1:10)"` — the
constraints of the `int` kind are parenthesized, not square-bracketed
as the claim requires. -/
theorem list_int_paren_counterexample :
    (extract_parameter_data paramListInt "Device.Test." [] [] [] emptyRoot).dataType
        = "int(1:10)"
    ∧ (extract_parameter_data paramListInt "Device.Test." [] [] [] emptyRoot).dataType
        ≠ "int[1:10]" := by
  decide

theorem upd_dataType_description (c : Prop) [Decidable c] (pd : ParamData) (x : String) :
    (if c then { pd with dataType := x } else pd).description = pd.description := by
  split <;> rfl

theorem upd_objectDefault_description (c : Prop) [Decidable c] (pd : ParamData) (x : String) :
    (if c then { pd with objectDefault := x } else pd).description = pd.description := by
  split <;> rfl

theorem upd_description_dataType (c : Prop) [Decidable c] (pd : ParamData) (x : String) :
    (if c then { pd with description := x } else pd).dataType = pd.dataType := by
  split <;> rfl

theorem upd_objectDefault_dataType (c : Prop) [Decidable c] (pd : ParamData) (x : String) :
    (if c then { pd with objectDefault := x } else pd).dataType = pd.dataType := by
  split <;> rfl

theorem upd_description_objectDefault (c : Prop) [Decidable c] (pd : ParamData) (x : String) :
    (if c then { pd with description := x } else pd).objectDefault = pd.objectDefault := by
  split <;> rfl

theorem upd_dataType_objectDefault (c : Prop) [Decidable c] (pd : ParamData) (x : String) :
    (if c then { pd with dataType := x } else pd).objectDefault = pd.objectDefault := by
  split <;> rfl

/-- C2: priority of the parameter-record fields.  A `Description`,
`Data Type` or `Object Default` that is already non-empty is never
overwritten by the template overlay or by the reference overlay (the
two lower-priority sources applied after it, in that order); the
documentation index is consulted before the embedded XML description;
and concretely a parameter with embedded description `"EmbDesc"` and a
template whose own description is `"TmplDesc"` keeps `"EmbDesc"`. -/
theorem param_field_priority :
    (∀ (pd : ParamData) (tdO : Option TemplateRes) (rdO : Option RefRes),
      (pd.description ≠ "" →
        (apply_reference_res (apply_template_res pd tdO) rdO).description = pd.description)
      ∧ (pd.dataType ≠ "" →
        (apply_reference_res (apply_template_res pd tdO) rdO).dataType = pd.dataType)
      ∧ (pd.objectDefault ≠ "" →
        (apply_reference_res (apply_template_res pd tdO) rdO).objectDefault = pd.objectDefault))
    ∧ (∀ (full_path : String) (html : List (String × String)) (param : Elem)
        (name obj v : String),
      html.lookup (normalize_path full_path) = some v →
      resolve_param_description full_path html param name obj = v)
    ∧ (extract_parameter_data paramTemplated "Device.X." [] templatesT [] emptyRoot).description
        = "EmbDesc" := by
  refine ⟨?_, ?_, by decide⟩
  · intro pd tdO rdO
    have hT : ∀ (q : ParamData) (td : TemplateRes),
        (q.description ≠ "" → (apply_template_data q td).description = q.description)
        ∧ (q.dataType ≠ "" → (apply_template_data q td).dataType = q.dataType)
        ∧ (q.objectDefault ≠ "" →
            (apply_template_data q td).objectDefault = q.objectDefault) := by
      intro q td
      simp only [apply_template_data]
      refine ⟨fun h => ?_, fun h => ?_, fun h => ?_⟩ <;>
        (repeat' split) <;> first | rfl | simp_all
    have hR : ∀ (q : ParamData) (rd : RefRes),
        (q.description ≠ "" → (apply_reference_data q rd).description = q.description)
        ∧ (q.dataType ≠ "" → (apply_reference_data q rd).dataType = q.dataType)
        ∧ (q.objectDefault ≠ "" →
            (apply_reference_data q rd).objectDefault = q.objectDefault) := by
      intro q rd
      simp only [apply_reference_data]
      refine ⟨fun h => ?_, fun h => ?_, fun h => ?_⟩ <;>
        (repeat' split) <;> first | rfl | simp_all
    have hTres : ∀ f : ParamData → String,
        (f = ParamData.description ∨ f = ParamData.dataType ∨ f = ParamData.objectDefault) →
        f pd ≠ "" → f (apply_template_res pd tdO) = f pd := by
      intro f hf h
      cases tdO with
      | none => rfl
      | some td =>
        rcases hf with rfl | rfl | rfl
        · exact (hT pd td).1 h
        · exact (hT pd td).2.1 h
        · exact (hT pd td).2.2 h
    refine ⟨fun h => ?_, fun h => ?_, fun h => ?_⟩
    · have h1 := hTres ParamData.description (Or.inl rfl) h
      cases rdO with
      | none => exact h1
      | some rd =>
        rw [show (apply_reference_res (apply_template_res pd tdO) (some rd))
            = apply_reference_data (apply_template_res pd tdO) rd from rfl]
        rw [(hR _ rd).1 (h1 ▸ h), h1]
    · have h1 := hTres ParamData.dataType (Or.inr (Or.inl rfl)) h
      cases rdO with
      | none => exact h1
      | some rd =>
        rw [show (apply_reference_res (apply_template_res pd tdO) (some rd))
            = apply_reference_data (apply_template_res pd tdO) rd from rfl]
        rw [(hR _ rd).2.1 (h1 ▸ h), h1]
    · have h1 := hTres ParamData.objectDefault (Or.inr (Or.inr rfl)) h
      cases rdO with
      | none => exact h1
      | some rd =>
        rw [show (apply_reference_res (apply_template_res pd tdO) (some rd))
            = apply_reference_data (apply_template_res pd tdO) rd from rfl]
        rw [(hR _ rd).2.2 (h1 ▸ h), h1]
  · intro full_path html param name obj v hlook
    simp only [resolve_param_description, hlook]

/-- Witness for the C2 theorem: a record with all three fields
non-empty survives a template overlay and a reference overlay
untouched. -/
theorem param_field_priority_witness :
    (apply_reference_res
        (apply_template_res ⟨"O.", "P", "O.P", "", "", "d", "t", "v", false⟩
          (some ⟨"d2", "t2", "v2"⟩))
        (some ⟨"rd", ""⟩)).description = "d"
    ∧ (apply_reference_res
        (apply_template_res ⟨"O.", "P", "O.P", "", "", "d", "t", "v", false⟩
          (some ⟨"d2", "t2", "v2"⟩))
        (some ⟨"rd", ""⟩)).dataType = "t"
    ∧ resolve_param_description "K" [("k", "Doc")]
        (.node "parameter" [] "" "" [.node "description" [] "Emb" "" []]) "P" "O." = "Doc" :=
  ⟨((param_field_priority.1 ⟨"O.", "P", "O.P", "", "", "d", "t", "v", false⟩
      (some ⟨"d2", "t2", "v2"⟩) (some ⟨"rd", ""⟩)).1 (by decide)),
   ((param_field_priority.1 ⟨"O.", "P", "O.P", "", "", "d", "t", "v", false⟩
      (some ⟨"d2", "t2", "v2"⟩) (some ⟨"rd", ""⟩)).2.1 (by decide)),
   (param_field_priority.2.1 "K" [("k", "Doc")]
      (.node "parameter" [] "" "" [.node "description" [] "Emb" "" []]) "P" "O." "Doc"
      (by decide))⟩

/-- C4 (amended): description resolution follows the strict priority
order (1) exact normalized match in the documentation index, (2)
relaxed `{i}`-stripped match with the first key in index order winning,
(3) the embedded description (the last description child),
macro-substituted and whitespace-collapsed; the literal sentinel is
produced only in case (4): no documentation match and *no embedded
description element at all* — an embedded description element whose
text is empty yields the empty string, not the sentinel (see the
counterexample). -/
theorem description_resolution_order :
    (∀ (fp : String) (html : List (String × String)) (param : Elem) (n o v : String),
      html.lookup (normalize_path fp) = some v →
      resolve_param_description fp html param n o = v)
    ∧ (∀ (fp : String) (html : List (String × String)) (param : Elem) (n o : String)
        (kv : String × String),
      html.lookup (normalize_path fp) = none →
      html.find? (fun kv => pyReplace kv.1 "{i}" "" == pyReplace (normalize_path fp) "{i}" "")
        = some kv →
      resolve_param_description fp html param n o = kv.2)
    ∧ (∀ (fp : String) (html : List (String × String)) (param : Elem) (n o : String)
        (d : Elem),
      html.lookup (normalize_path fp) = none →
      html.find? (fun kv => pyReplace kv.1 "{i}" "" == pyReplace (normalize_path fp) "{i}" "")
        = none →
      (descChildren param).getLast? = some d →
      resolve_param_description fp html param n o = clean_text (substitute_macros d.itertext n o))
    ∧ (∀ (fp : String) (html : List (String × String)) (param : Elem) (n o : String),
      html.lookup (normalize_path fp) = none →
      html.find? (fun kv => pyReplace kv.1 "{i}" "" == pyReplace (normalize_path fp) "{i}" "")
        = none →
      descChildren param = [] →
      resolve_param_description fp html param n o = "No HTML or XML description available") := by
  refine ⟨?_, ?_, ?_, ?_⟩
  · intro fp html param n o v hlook
    simp only [resolve_param_description, hlook]
  · intro fp html param n o kv hlook hfind
    simp only [resolve_param_description, hlook, hfind]
  · intro fp html param n o d hlook hfind hdesc
    simp only [resolve_param_description, hlook, hfind, hdesc]
  · intro fp html param n o hlook hfind hdesc
    simp only [resolve_param_description, hlook, hfind, hdesc, List.getLast?_nil]

/-- Witness for the C4 theorem: all four priority levels exercised at
concrete inputs. -/
theorem description_resolution_order_witness :
    resolve_param_description "Device.A" [("device.a", "ExactDoc")] emptyRoot "A" "Device."
        = "ExactDoc"
    ∧ resolve_param_description "X" [("x{i}", "RelaxedDoc")] emptyRoot
        "X" "Device." = "RelaxedDoc"
    ∧ resolve_param_description "Device.C" [] paramTemplated "P" "Device." = "EmbDesc"
    ∧ resolve_param_description "Device.D" [] emptyRoot "D" "Device."
        = "No HTML or XML description available" :=
  ⟨description_resolution_order.1 "Device.A" [("device.a", "ExactDoc")] emptyRoot "A" "Device."
      "ExactDoc" (by decide),
   description_resolution_order.2.1 "X" [("x{i}", "RelaxedDoc")] emptyRoot
      "X" "Device." ("x{i}", "RelaxedDoc") (by decide) (by decide),
   description_resolution_order.2.2.1 "Device.C" [] paramTemplated "P" "Device."
      (.node "description" [] "EmbDesc" "" []) (by decide) (by decide) rfl,
   description_resolution_order.2.2.2 "Device.D" [] emptyRoot "D" "Device."
      (by decide) (by decide) rfl⟩

/-- C4 counterexample: a parameter whose only embedded description
element has empty text, with no documentation match — everything the
claim lists is empty, yet the result is the empty string, not the
sentinel. -/
theorem empty_description_not_sentinel :
    resolve_param_description "Device.X.P" [] paramEmptyDesc "P" "Device.X." = ""
    ∧ ("" : String) ≠ "No HTML or XML description available" := by
  decide

/-- C6: a `string` primitive all of whose children are enumerations
renders as the bare kind `string` (enumeration values suppressed); a
`string` primitive that also has a size/range constraint sibling
renders with kind `enum`, the constraints kept in its (parenthesized)
constraint group, and the literal enumeration values appended in
declaration order, comma-joined. -/
theorem string_enum_collapse :
    (∀ e : Elem, tag_norm e = "string" → (∀ c ∈ e.children, tag_norm c = "enumeration") →
      extract_type_info e = "string")
    ∧ (∀ e : Elem, tag_norm e = "string" → enumValues e ≠ [] → size_ranges_of e ≠ [] →
      extract_type_info e
        = "enum" ++ size_range_str_of e
            ++ "[" ++ String.intercalate "," (enumValues e) ++ "]"
      ∧ size_range_str_of e
        = "(" ++ String.intercalate ", " (size_ranges_of e) ++ ")") := by
  have tag_of_size : ∀ c : Elem, c.tag = "size" → tag_norm c = "size" := by
    intro c hc
    simp only [tag_norm, hc]
    decide
  have tag_of_range : ∀ c : Elem, c.tag = "range" → tag_norm c = "range" := by
    intro c hc
    simp only [tag_norm, hc]
    decide
  have sr_empty : ∀ e : Elem, (∀ c ∈ e.children, tag_norm c = "enumeration") →
      size_ranges_of e = [] := by
    intro e hall
    have hsize : findallTag e "size" = [] := by
      rw [findallTag, List.filter_eq_nil_iff]
      intro c hc hbeq
      have hc' : c.tag = "size" := by simpa using hbeq
      have := hall c hc
      rw [tag_of_size c hc'] at this
      exact absurd this (by decide)
    have hrange : findallTag e "range" = [] := by
      rw [findallTag, List.filter_eq_nil_iff]
      intro c hc hbeq
      have hc' : c.tag = "range" := by simpa using hbeq
      have := hall c hc
      rw [tag_of_range c hc'] at this
      exact absurd this (by decide)
    rw [size_ranges_of, hsize, findTag, hrange]
    simp
  refine ⟨?_, ?_⟩
  · intro e htag hall
    have hsr := sr_empty e hall
    have hsrs : size_range_str_of e = "" := by
      simp [size_range_str_of, hsr]
    by_cases hev : (enumValues e).isEmpty
    · simp [extract_type_info, htag, hsr, hsrs, hev]
    · have hev' : (enumValues e).isEmpty = false := by
        rw [Bool.eq_false_iff]
        exact hev
      simp [extract_type_info, htag, hsr, hsrs, hev']
      rw [if_pos (fun x hx hne => absurd (hall x hx) hne), if_pos hall]
  · intro e htag henum hsr
    have hnotall : ¬(∀ c ∈ e.children, tag_norm c = "enumeration") :=
      fun hall => hsr (sr_empty e hall)
    have hsrne : (size_ranges_of e).isEmpty = false := by
      rw [Bool.eq_false_iff]
      simpa [List.isEmpty_iff] using hsr
    have hsrs : size_range_str_of e
        = "(" ++ String.intercalate ", " (size_ranges_of e) ++ ")" := by
      rw [size_range_str_of]
      rw [if_neg (by simp [hsrne])]
      rw [if_neg (by rw [htag]; decide)]
    refine ⟨?_, hsrs⟩
    have hev' : (enumValues e).isEmpty = false := by
      rw [Bool.eq_false_iff]
      simpa [List.isEmpty_iff] using henum
    have hpure_false :
        ¬(tag_norm e = "string" ∧ ∀ c ∈ e.children, tag_norm c = "enumeration") :=
      fun hp => hnotall hp.2
    simp [extract_type_info, hev', hsrne, hpure_false]

/-- Witness for the C6 theorem: the two concrete `string` nodes. -/
theorem string_enum_collapse_witness :
    extract_type_info stringPureEnum = "string"
    ∧ extract_type_info stringEnumSized
        = "enum" ++ size_range_str_of stringEnumSized
            ++ "[" ++ String.intercalate "," (enumValues stringEnumSized) ++ "]" :=
  ⟨string_enum_collapse.1 stringPureEnum (by decide) (by decide),
   (string_enum_collapse.2 stringEnumSized (by decide) (by decide) (by decide)).1⟩

/-! ### Chain termination (C3) -/

theorem find_dataType_mem (root : Elem) (b : String) (parent : Elem)
    (h : find_dataType root b = some parent) : b ∈ dtNames root := by
  unfold find_dataType at h
  have hmem := List.mem_of_find?_eq_some h
  have hpred := List.find?_some h
  rw [Bool.and_eq_true] at hpred
  obtain ⟨ht, hn⟩ := hpred
  unfold dtNames
  rw [List.mem_filterMap]
  refine ⟨parent, ?_, ?_⟩
  · rw [List.mem_filter]
    exact ⟨hmem, ht⟩
  · simpa using hn

theorem walkStep_mem (root elem : Elem) (visited : List String) (bp : String × Elem)
    (h : walkStep root elem visited = some bp) :
    bp.1 ∈ dtNames root ∧ bp.1 ∉ visited := by
  unfold walkStep at h
  split at h
  · next b _ =>
    split at h
    · next hcond =>
      split at h
      · next parent hf =>
        have hbp : (b, parent) = bp := by injection h
        obtain ⟨_, hb2⟩ := hcond
        rw [← hbp]
        refine ⟨find_dataType_mem root b parent hf, ?_⟩
        intro hmem
        exact hb2 (List.elem_iff.mpr hmem)
      · exact absurd h (by simp)
    · exact absurd h (by simp)
  · exact absurd h (by simp)

theorem unvisitedBound_cons_lt (root : Elem) (visited : List String) (b : String)
    (hmem : b ∈ dtNames root) (hnot : b ∉ visited) :
    unvisitedBound root (b :: visited) < unvisitedBound root visited := by
  unfold unvisitedBound
  apply Finset.card_lt_card
  rw [List.toFinset_cons]
  rw [Finset.ssubset_def]
  constructor
  · exact Finset.sdiff_subset_sdiff (le_refl _) (Finset.subset_insert _ _)
  · intro hsup
    have hb : b ∈ (dtNames root).toFinset \ visited.toFinset := by
      rw [Finset.mem_sdiff]
      exact ⟨List.mem_toFinset.mpr hmem, fun hc => hnot (List.mem_toFinset.mp hc)⟩
    have hb' := hsup hb
    rw [Finset.mem_sdiff] at hb'
    exact hb'.2 (Finset.mem_insert_self b _)

theorem chain_exists_le (root : Elem) :
    ∀ (k : Nat) (elem : Elem) (visited : List String), unvisitedBound root visited ≤ k →
    ∃ n, n ≤ unvisitedBound root visited ∧ BaseChainLen root elem visited n := by
  intro k
  induction k with
  | zero =>
    intro elem visited hk
    cases hw : walkStep root elem visited with
    | none => exact ⟨0, Nat.zero_le _, .stop elem visited hw⟩
    | some bp =>
      exfalso
      obtain ⟨hmem, hnot⟩ := walkStep_mem root elem visited bp hw
      have := unvisitedBound_cons_lt root visited bp.1 hmem hnot
      omega
  | succ k ih =>
    intro elem visited hk
    cases hw : walkStep root elem visited with
    | none => exact ⟨0, Nat.zero_le _, .stop elem visited hw⟩
    | some bp =>
      obtain ⟨hmem, hnot⟩ := walkStep_mem root elem visited bp hw
      have hlt := unvisitedBound_cons_lt root visited bp.1 hmem hnot
      obtain ⟨n, hn, hchain⟩ := ih bp.2 (bp.1 :: visited) (by omega)
      refine ⟨n + 1, by omega, ?_⟩
      exact .step elem visited bp.1 bp.2 n (by rw [hw]) hchain

theorem walk_isSome_of_chain (root : Elem) (elem : Elem) (visited : List String) (n : Nat)
    (h : BaseChainLen root elem visited n) :
    (walk_base_chain (n + 1) elem root visited).isSome := by
  induction h with
  | stop elem visited hstop =>
    rw [walk_base_chain]
    cases hl : walk_local elem with
    | some ti => simp
    | none =>
      rw [hstop]
      simp
  | step elem visited b parent n hb hrec ih =>
    rw [walk_base_chain]
    cases hl : walk_local elem with
    | some ti => simp
    | none =>
      rw [hb]
      exact ih

theorem walk_mono (root : Elem) :
    ∀ (f : Nat) (elem : Elem) (visited : List String) (f' : Nat) (r : Option String),
    f ≤ f' → walk_base_chain f elem root visited = some r →
    walk_base_chain f' elem root visited = some r := by
  intro f
  induction f with
  | zero =>
    intro elem visited f' r _ hw
    exact absurd hw (by simp [walk_base_chain])
  | succ n ih =>
    intro elem visited f' r hle hw
    cases f' with
    | zero => omega
    | succ m =>
      rw [walk_base_chain] at hw ⊢
      cases hl : walk_local elem with
      | some ti =>
        rw [hl] at hw
        exact hw
      | none =>
        rw [hl] at hw
        cases hs : walkStep root elem visited with
        | some bp =>
          rw [hs] at hw
          exact ih bp.2 (bp.1 :: visited) m r (by omega) hw
        | none =>
          rw [hs] at hw
          exact hw

/-- C3: the dataType chain resolver terminates.  Every base chain has a
finite length bounded by the number of unvisited dataType names (the
visited set, seeded with the starting name, prevents any revisit); a
chain of length `N` makes the walk return within fuel `N + 1`; any fuel
above the unvisited bound suffices; and on the concrete cyclic table
(`A` based on `B`, `B` based on `A`) and on an unknown name the
resolver returns null rather than looping or failing. -/
theorem resolve_datatype_chain_terminates :
    (∀ (root elem : Elem) (visited : List String) (n : Nat),
      BaseChainLen root elem visited n →
      (walk_base_chain (n + 1) elem root visited).isSome)
    ∧ (∀ (root elem : Elem) (visited : List String),
      ∃ n, n ≤ unvisitedBound root visited ∧ BaseChainLen root elem visited n)
    ∧ (∀ (root elem : Elem) (visited : List String) (f : Nat),
      unvisitedBound root visited < f →
      (walk_base_chain f elem root visited).isSome)
    ∧ resolve_datatype_reference cycRoot "A" = none
    ∧ resolve_datatype_reference cycRoot "Missing" = none := by
  refine ⟨walk_isSome_of_chain, ?_, ?_, by decide, by decide⟩
  · intro root elem visited
    exact chain_exists_le root (unvisitedBound root visited) elem visited (le_refl _)
  · intro root elem visited f hf
    obtain ⟨n, hn, hchain⟩ :=
      chain_exists_le root (unvisitedBound root visited) elem visited (le_refl _)
    have h1 := walk_isSome_of_chain root elem visited n hchain
    obtain ⟨r, hr⟩ := Option.isSome_iff_exists.mp h1
    rw [walk_mono root (n + 1) elem visited f r (by omega) hr]
    rfl

/-- Witness for the C3 theorem: the concrete two-step chain
`A → B → (B's base already visited)` makes the walk return within fuel
2. -/
theorem resolve_datatype_chain_terminates_witness :
    (walk_base_chain 2 dtA cycRoot ["A"]).isSome = true :=
  resolve_datatype_chain_terminates.1 cycRoot dtA ["A"] 1
    (.step dtA ["A"] "B" dtB 0 rfl (.stop dtB ["B", "A"] rfl))

/-! ### Template chain recursion is unbounded on a cycle (C5) -/

theorem template_cycle_exhausts_aux (fuel : Nat) :
    extract_template_data_fuel fuel cycTemplates "A" = none
    ∧ extract_template_data_fuel fuel cycTemplates "B" = none := by
  induction fuel with
  | zero => exact ⟨rfl, rfl⟩
  | succ n ih =>
    have ihA := ih.1
    have ihB := ih.2
    simp only [cycTemplates] at ihA ihB
    constructor
    · show extract_template_data_fuel (n + 1) cycTemplates "A" = none
      rw [extract_template_data_fuel]
      simp only [cycTemplates, List.lookup]
      rw [show (("A" : String) == "A") = true from rfl]
      simp only [if_pos (show ("B" : String) ≠ "" by decide)]
      rw [ihB]
    · show extract_template_data_fuel (n + 1) cycTemplates "B" = none
      rw [extract_template_data_fuel]
      simp only [cycTemplates, List.lookup]
      rw [show (("B" : String) == "A") = false from rfl,
        show (("B" : String) == "B") = true from rfl]
      simp only [if_pos (show ("A" : String) ≠ "" by decide)]
      rw [ihA]

/-- C5 is violated by the code: on the cyclic template table
(`A`'s parent is `B`, `B`'s parent is `A`), `extract_template_data`
exhausts *every* finite recursion fuel — the Python original recurses
without any visited set or depth bound and never returns (it dies with
`RecursionError`), rather than treating the re-visit as resolution
failure. -/
theorem template_cycle_unbounded :
    ∀ fuel : Nat, extract_template_data_fuel fuel cycTemplates "A" = none :=
  fun fuel => (template_cycle_exhausts_aux fuel).1

end XmlConv
